import Mathlib

/-!
Verification of the simulation-clock and camera/viewport transform core of
the `EframeCirclesAndQuadsExample` application (`src/main.rs`).

Time is modelled in whole nanoseconds (`std::time::Duration` stores time to
nanosecond precision and all `Duration` arithmetic is exact in nanoseconds);
`f32` quantities (`time_scale`, camera position, `zoom`, viewport geometry)
are idealised as exact rationals.
-/

namespace CirclesQuads

/-- Nanoseconds: the granularity of `std::time::Duration`. -/
abbrev Nanos := Nat

def nanosPerSec : Nat := 1000000000

/-- The tick duration `std::time::Duration::from_secs(1) / self.physics_ticks`
(main.rs line 54).  `Duration` division by an integer truncates to whole
nanoseconds, so for example `timeStep 3 = 333333333`. -/
def timeStep (physics_ticks : Nat) : Nanos := nanosPerSec / physics_ticks

/-- The frame delta `dt.mul_f32(self.time_scale.abs())` (main.rs line 53):
`Duration::mul_f32` multiplies the duration by the scalar and rounds the
result to whole nanoseconds (rounding idealised as round-to-nearest over
exact rationals). -/
def mulScale (dt : Nanos) (k : ℚ) : Nanos := (⌊(dt : ℚ) * k + 1/2⌋).toNat

/-- The drain loop (main.rs lines 56-61):
`while self.physics_time >= time_step { ...; self.physics_time -= time_step }`.
Returns the number of loop iterations (simulation ticks emitted) together
with the final value of `physics_time`.  The loop body is the hook point for
physics; it does not touch the clock state. -/
def drain (t step : Nanos) : Nat × Nanos :=
  if h : 0 < step ∧ step ≤ t then
    let r := drain (t - step) step
    (r.1 + 1, r.2)
  else (0, t)
termination_by t
decreasing_by exact Nat.sub_lt (Nat.lt_of_lt_of_le h.1 h.2) h.1

/-- `f32::signum` as the code uses it on `time_scale` (main.rs line 55):
`1` for non-negative values (Rust returns `1.0` for `+0.0`), `-1` for
negative values. -/
def signum (q : ℚ) : ℚ := if q < 0 then -1 else 1

/-- The per-tick scale factor
`let ts = time_step.as_secs_f32() * self.time_scale.signum()` (main.rs
line 55), handed to each simulation step. -/
def tsFactor (physics_ticks : Nat) (time_scale : ℚ) : ℚ :=
  ((timeStep physics_ticks : ℚ) / (nanosPerSec : ℚ)) * signum time_scale

/-- One frame of the clock accumulator (main.rs lines 53-61): add
`dt * |time_scale|` to `physics_time`, then drain whole time steps.
Returns the ticks emitted this frame and the new `physics_time`. -/
def clockFrame (physics_ticks : Nat) (time_scale : ℚ) (physics_time : Nanos)
    (dt : Nanos) : Nat × Nanos :=
  drain (physics_time + mulScale dt |time_scale|) (timeStep physics_ticks)

/-- Run the clock accumulator over a finite sequence of frame deltas,
starting from accumulated time `physics_time`; returns the total number of
ticks emitted and the final accumulated time. -/
def clockRun (physics_ticks : Nat) (time_scale : ℚ) (physics_time : Nanos) :
    List Nanos → Nat × Nanos
  | [] => (0, physics_time)
  | dt :: dts =>
    let f := clockFrame physics_ticks time_scale physics_time dt
    let rest := clockRun physics_ticks time_scale f.2 dts
    (f.1 + rest.1, rest.2)

/-- The frame delta
`time.duration_since(self.last_frame_time.unwrap_or(time))` (main.rs
line 51): on the first frame `last_frame_time` is `None` and the delta is
`time - time = 0`. -/
def frameDt (last_frame_time : Option Nanos) (now : Nanos) : Nanos :=
  now - last_frame_time.getD now

/-- Initial accumulated time `physics_time: std::time::Duration::ZERO` set in
`App::new` (main.rs line 38). -/
def initPhysicsTime : Nanos := 0

/-- Initial `last_frame_time: None` set in `App::new` (main.rs line 35). -/
def initLastFrameTime : Option Nanos := Option.none

/-- The camera state (main.rs lines 15-18), `f32` idealised as ℚ. -/
@[ext]
structure Camera where
  position : ℚ × ℚ
  zoom : ℚ
deriving DecidableEq

/-- Initial camera from `App::new` (main.rs lines 40-43): position (0,0),
zoom 0.25. -/
def initCamera : Camera := { position := (0, 0), zoom := 1/4 }

/-- Secondary-button drag pan (main.rs lines 99-104):
`position.x -= delta.x / zoom / rect.width() * 2.0 * aspect` and
`position.y += delta.y / zoom / rect.height() * 2.0`, with
`aspect = rect.width() / rect.height()` (main.rs line 97). -/
def pan (cam : Camera) (dx dy width height : ℚ) : Camera :=
  let aspect := width / height
  { cam with
    position := (cam.position.1 - dx / cam.zoom / width * 2 * aspect,
                 cam.position.2 + dy / cam.zoom / height * 2) }

/-- Pointer-to-world resolution (main.rs lines 108-119 and 131-142):
normalise the pointer position within the viewport rectangle to clip
coordinates in [-1,1]×[-1,1] with Y flipped, then divide by zoom, scale x by
aspect and offset by the camera position. -/
def screenToWorld (cam : Camera) (left top width height px py : ℚ) : ℚ × ℚ :=
  let aspect := width / height
  let mx := (px - left) / width * 2 - 1
  let my := ((py - top) / height * 2 - 1) * (-1)
  (mx * aspect / cam.zoom + cam.position.1,
   my / cam.zoom + cam.position.2)

/-- Scroll-wheel zoom step while hovering (main.rs lines 146-150):
`match input.scroll_delta.y.total_cmp(&0.0)` — a negative delta multiplies
zoom by 0.9, a positive delta divides zoom by 0.9, zero leaves it unchanged. -/
def applyScroll (zoom scrollY : ℚ) : ℚ :=
  if scrollY < 0 then zoom * (9/10)
  else if 0 < scrollY then zoom / (9/10)
  else zoom

/-- The per-frame pointer state read by the central-panel handler. -/
structure FrameInput where
  secondaryDragged : Bool
  dragDx : ℚ
  dragDy : ℚ
  hovered : Bool
  scrollY : ℚ

/-- The camera mutations of one frame of the central-panel handler
(main.rs lines 95-151): pan on a secondary-button drag, then a zoom step on
scroll while the viewport response is hovered.  The code checks no viewport
dimension anywhere: the pan branch divides by `rect.height()` unguarded, and
the zoom branch does not read the rectangle geometry at all. -/
def updateCamera (cam : Camera) (width height : ℚ) (inp : FrameInput) : Camera :=
  let cam1 :=
    if inp.secondaryDragged then pan cam inp.dragDx inp.dragDy width height else cam
  if inp.hovered then { cam1 with zoom := applyScroll cam1.zoom inp.scrollY } else cam1

-- Basic characterisation of the drain loop.

theorem drain_eq (t step : Nanos) : drain t step = (t / step, t % step) := by
  induction t using Nat.strong_induction_on with
  | _ t ih =>
    rw [drain.eq_def]
    by_cases h : 0 < step ∧ step ≤ t
    · rw [dif_pos h, ih (t - step) (Nat.sub_lt (Nat.lt_of_lt_of_le h.1 h.2) h.1)]
      rw [Nat.div_eq t step, Nat.mod_eq t step, if_pos h, if_pos h]
    · rw [dif_neg h, Nat.div_eq t step, Nat.mod_eq t step, if_neg h, if_neg h]

theorem mulScale_one (dt : Nanos) : mulScale dt 1 = dt := by
  simp [mulScale]
  rw [show ⌊(2⁻¹ : ℚ)⌋ = 0 from Int.floor_eq_zero_iff.mpr (by constructor <;> norm_num)]
  simp

theorem floor_half : ⌊(2⁻¹ : ℚ)⌋ = 0 :=
  Int.floor_eq_zero_iff.mpr (by constructor <;> norm_num)

theorem mulScale_zero (dt : Nanos) : mulScale dt 0 = 0 := by
  simp [mulScale, floor_half]

theorem div_eq_zero_of_mod_self {a s : Nat} (h : a % s = a) : a / s = 0 := by
  rcases Nat.eq_zero_or_pos s with hs | hs
  · subst hs; exact Nat.div_zero a
  · exact Nat.div_eq_of_lt (h ▸ Nat.mod_lt a hs)

theorem div_add_mod_add_div (a b s : Nat) : a / s + (a % s + b) / s = (a + b) / s := by
  rcases Nat.eq_zero_or_pos s with hs | hs
  · subst hs; simp
  · conv_rhs => rw [← Nat.div_add_mod a s]
    rw [Nat.add_assoc, Nat.mul_add_div hs]

theorem mod_add_mod_left (a b s : Nat) : (a % s + b) % s = (a + b) % s := by
  conv_rhs => rw [Nat.add_mod]
  rw [Nat.add_mod (a % s) b, Nat.mod_mod_of_dvd a (dvd_refl s)]

/-- With `time_scale` held at 1, a run of the accumulator from a state that is
already a remainder (in particular from `physics_time = 0`) emits in total the
whole number of time steps contained in the accumulated nanoseconds, and
leaves their remainder — independently of how the total is chunked. -/
theorem clockRun_one (R : Nat) (acc : Nanos) (dts : List Nanos)
    (hacc : acc % timeStep R = acc) :
    clockRun R 1 acc dts =
      ((acc + dts.sum) / timeStep R, (acc + dts.sum) % timeStep R) := by
  induction dts generalizing acc with
  | nil => simp [clockRun, div_eq_zero_of_mod_self hacc, hacc]
  | cons d rest ih =>
    have hframe : clockFrame R 1 acc d = ((acc + d) / timeStep R, (acc + d) % timeStep R) := by
      rw [clockFrame, abs_one, mulScale_one, drain_eq]
    have hnext : (acc + d) % timeStep R % timeStep R = (acc + d) % timeStep R :=
      Nat.mod_mod_of_dvd (acc + d) (dvd_refl (timeStep R))
    rw [clockRun, hframe, ih ((acc + d) % timeStep R) hnext]
    simp only [List.sum_cons]
    rw [div_add_mod_add_div (acc + d) rest.sum (timeStep R),
        mod_add_mod_left (acc + d) rest.sum (timeStep R)]
    rw [Nat.add_assoc acc d rest.sum]

/-- With `time_scale = 0`, every frame adds `dt * 0 = 0` nanoseconds, so from
a state that is already a remainder the accumulator never changes and no tick
is ever emitted. -/
theorem clockRun_zero (R : Nat) (acc : Nanos) (dts : List Nanos)
    (hacc : acc % timeStep R = acc) : clockRun R 0 acc dts = (0, acc) := by
  induction dts with
  | nil => rfl
  | cons d rest ih =>
    have hframe : clockFrame R 0 acc d = (0, acc) := by
      rw [clockFrame, abs_zero, mulScale_zero, Nat.add_zero, drain_eq,
          div_eq_zero_of_mod_self hacc, hacc]
    rw [clockRun, hframe, ih]
    simp

/-- The clock run depends on `time_scale` only through its absolute value. -/
theorem clockRun_abs (R : Nat) (s : ℚ) (acc : Nanos) (dts : List Nanos) :
    clockRun R |s| acc dts = clockRun R s acc dts := by
  induction dts generalizing acc with
  | nil => rfl
  | cons d rest ih =>
    rw [clockRun, clockRun, clockFrame, clockFrame, abs_abs, ih]

/-- C1 counterexample: the code computes the tick duration by truncating
`1 s / tick_rate` to whole nanoseconds, so with tick_rate 3 the step is
333333333 ns and a single frame delta of 333333333 ns (T = 0.333333333 s)
emits 1 tick, although ⌊T·R⌋ = ⌊0.999999999⌋ = 0. -/
theorem C1_counterexample :
    clockRun 3 1 initPhysicsTime [333333333] = (1, 0) ∧
    ⌊(333333333 : ℚ) / 1000000000 * 3⌋ = 0 := by
  constructor
  · rw [clockRun_one 3 initPhysicsTime [333333333] (by decide)]
    decide
  · refine Int.floor_eq_zero_iff.mpr ?_
    rw [Set.mem_Ico]
    norm_num

/-- C1 amended: for tick_rate R in the app's range [1,1000] with time_scale 1,
a run from the initial state emits exactly `T_ns / timeStep R` ticks and
leaves remainder `T_ns % timeStep R`, where `T_ns` is the total of the frame
deltas in nanoseconds and `timeStep R = ⌊10^9/R⌋` ns is the truncated tick
duration — depending only on the total, not on its chunking.  This equals
⌊T·R⌋ exactly when R divides 10^9; in particular with tick_rate 100, three
15 ms deltas emit 4 ticks and leave 5000000 ns = 0.005 s. -/
theorem C1_tick_count :
    (∀ (R : Nat) (dts : List Nanos), 1 ≤ R → R ≤ 1000 →
      clockRun R 1 initPhysicsTime dts =
        (dts.sum / timeStep R, dts.sum % timeStep R)) ∧
    clockRun 100 1 initPhysicsTime [15000000, 15000000, 15000000] = (4, 5000000) ∧
    (5000000 : ℚ) / 1000000000 = 5 / 1000 := by
  refine ⟨?_, ?_, by norm_num⟩
  · intro R dts _ _
    rw [clockRun_one R initPhysicsTime dts (Nat.zero_mod (timeStep R))]
    rw [show initPhysicsTime + dts.sum = dts.sum from Nat.zero_add dts.sum]
  · rw [clockRun_one 100 initPhysicsTime [15000000, 15000000, 15000000] (by decide)]
    decide

/-- C1 witness for the amended statement at R = 100 with the 45 ms total
split into one chunk. -/
theorem C1_witness :
    1 ≤ 100 ∧ 100 ≤ 1000 ∧
    clockRun 100 1 initPhysicsTime [45000000] =
      ([(45000000 : Nanos)].sum / timeStep 100, [(45000000 : Nanos)].sum % timeStep 100) :=
  ⟨by decide, by decide, C1_tick_count.1 100 [45000000] (by decide) (by decide)⟩

/-- C2: after any accumulate-and-drain frame with tick_rate in the app's
range [1,1000], the accumulated remainder is non-negative, strictly below the
(truncated) nanosecond time step, and as seconds strictly below
`1/tick_rate` seconds. -/
theorem C2_remainder_bound (R : Nat) (s : ℚ) (acc dt : Nanos)
    (h1 : 1 ≤ R) (h2 : R ≤ 1000) :
    0 ≤ (((clockFrame R s acc dt).2 : ℚ)) ∧
    (clockFrame R s acc dt).2 < timeStep R ∧
    ((clockFrame R s acc dt).2 : ℚ) / 1000000000 < 1 / (R : ℚ) := by
  have hstep : 0 < timeStep R := by
    rw [timeStep, nanosPerSec]
    exact Nat.div_pos (by omega) (by omega)
  have hrem : (clockFrame R s acc dt).2 =
      (acc + mulScale dt |s|) % timeStep R := by
    rw [clockFrame, drain_eq]
  have hlt : (clockFrame R s acc dt).2 < timeStep R := by
    rw [hrem]; exact Nat.mod_lt _ hstep
  refine ⟨(clockFrame R s acc dt).2.cast_nonneg, hlt, ?_⟩
  have key : (clockFrame R s acc dt).2 * R < 1000000000 := by
    calc (clockFrame R s acc dt).2 * R < timeStep R * R :=
          (Nat.mul_lt_mul_right (by omega)).mpr hlt
      _ ≤ 1000000000 := Nat.div_mul_le_self 1000000000 R
  rw [div_lt_div_iff₀ (by norm_num) (by exact_mod_cast Nat.lt_of_lt_of_le one_pos h1)]
  calc ((clockFrame R s acc dt).2 : ℚ) * R = ((clockFrame R s acc dt).2 * R : ℕ) := by
        push_cast; ring
    _ < 1000000000 := by exact_mod_cast key
    _ = 1 * 1000000000 := by ring

/-- C2 witness at tick_rate 100, time_scale 1, a 45 ms frame from the
initial state. -/
theorem C2_witness :
    1 ≤ 100 ∧ 100 ≤ 1000 ∧
    (0 ≤ (((clockFrame 100 1 initPhysicsTime 45000000).2 : ℚ)) ∧
     (clockFrame 100 1 initPhysicsTime 45000000).2 < timeStep 100 ∧
     ((clockFrame 100 1 initPhysicsTime 45000000).2 : ℚ) / 1000000000 < 1 / (100 : ℚ)) :=
  ⟨by decide, by decide,
   C2_remainder_bound 100 1 initPhysicsTime 45000000 (by decide) (by decide)⟩

/-- C3 counterexample: with time_scale 0, a one-second frame from the
initial state emits no tick but the accumulated time also stays 0 — it does
not grow, refuting the claim that accumulated time still grows each frame. -/
theorem C3_counterexample :
    clockFrame 100 0 initPhysicsTime 1000000000 = (0, 0) ∧
    ¬ initPhysicsTime < (clockFrame 100 0 initPhysicsTime 1000000000).2 := by
  have h : clockFrame 100 0 initPhysicsTime 1000000000 = (0, 0) := by
    rw [clockFrame, abs_zero, mulScale_zero, drain_eq]
    decide
  exact ⟨h, by rw [h]; decide⟩

/-- C3 amended: with time_scale 0 the accumulator adds `dt·0 = 0` every
frame, so from any drained state (in particular the initial state) no tick is
ever emitted over any finite frame sequence and the accumulated time stays
constant — it neither grows nor drains. -/
theorem C3_zero_scale (R : Nat) (acc : Nanos) (dts : List Nanos)
    (hacc : acc % timeStep R = acc) :
    clockRun R 0 acc dts = (0, acc) :=
  clockRun_zero R acc dts hacc

/-- C3 witness: tick_rate 100, frames of 1 s and 3 s at time_scale 0 from the
initial state. -/
theorem C3_witness :
    initPhysicsTime % timeStep 100 = initPhysicsTime ∧
    clockRun 100 0 initPhysicsTime [1000000000, 3000000000] = (0, initPhysicsTime) :=
  ⟨by decide, C3_zero_scale 100 initPhysicsTime [1000000000, 3000000000] (by decide)⟩

/-- C4: the number of ticks emitted is the same for time_scale `s` and `|s|`
(the accumulator only reads `|s|`), and the per-tick scale factor `ts` equals
the (truncated) tick duration in seconds times the sign of `s`: `+` for
positive `s`, `-` for negative `s`. -/
theorem C4_sign_invariance (R : Nat) (s : ℚ) (acc : Nanos) (dts : List Nanos) :
    (clockRun R s acc dts).1 = (clockRun R |s| acc dts).1 ∧
    (0 < s → tsFactor R s = (timeStep R : ℚ) / (nanosPerSec : ℚ)) ∧
    (s < 0 → tsFactor R s = -((timeStep R : ℚ) / (nanosPerSec : ℚ))) := by
  refine ⟨by rw [clockRun_abs], ?_, ?_⟩
  · intro hs
    rw [tsFactor, signum, if_neg (not_lt.mpr hs.le), mul_one]
  · intro hs
    rw [tsFactor, signum, if_pos hs, mul_neg, mul_one]

/-- C4 witness: tick_rate 100, time_scale -2 versus 2 over a 15 ms frame. -/
theorem C4_witness :
    (clockRun 100 (-2) initPhysicsTime [15000000]).1 =
      (clockRun 100 |(-2 : ℚ)| initPhysicsTime [15000000]).1 ∧
    ((-2 : ℚ) < 0 ∧
      tsFactor 100 (-2) = -((timeStep 100 : ℚ) / (nanosPerSec : ℚ))) :=
  ⟨(C4_sign_invariance 100 (-2) initPhysicsTime [15000000]).1,
   by norm_num,
   (C4_sign_invariance 100 (-2) initPhysicsTime [15000000]).2.2 (by norm_num)⟩

/-- C5: starting from any strictly positive zoom, zoom is still strictly
positive after any finite sequence of scroll zoom steps. -/
theorem C5_zoom_positive (z : ℚ) (scrolls : List ℚ) (hz : 0 < z) :
    0 < scrolls.foldl applyScroll z := by
  induction scrolls generalizing z with
  | nil => exact hz
  | cons a rest ih =>
    refine ih (applyScroll z a) ?_
    rw [applyScroll]
    split
    · exact mul_pos hz (by norm_num)
    · split
      · exact div_pos hz (by norm_num)
      · exact hz

/-- C5 witness: the initial zoom 0.25 under a scroll-down then two
scroll-ups. -/
theorem C5_witness :
    0 < initCamera.zoom ∧
    0 < [(-1 : ℚ), 2, 3].foldl applyScroll initCamera.zoom :=
  ⟨by norm_num [initCamera],
   C5_zoom_positive initCamera.zoom [-1, 2, 3] (by norm_num [initCamera])⟩

/-- C6: one scroll-up step divides zoom by 0.9 and one scroll-down step
multiplies it by 0.9; from zoom 1 a scroll-up gives 10/9 ≈ 1.1111 and a
following scroll-down restores exactly 1, and the round trip is the identity
from any zoom. -/
theorem C6_scroll_inverse :
    applyScroll 1 1 = 10 / 9 ∧
    |applyScroll 1 1 - 11111 / 10000| < 1 / 1000 ∧
    applyScroll (applyScroll 1 1) (-1) = 1 ∧
    ∀ z : ℚ, applyScroll (applyScroll z 1) (-1) = z := by
  have hup : ∀ z : ℚ, applyScroll z 1 = z / (9 / 10) := by
    intro z
    rw [applyScroll, if_neg (by norm_num), if_pos (by norm_num)]
  have hdown : ∀ z : ℚ, applyScroll z (-1) = z * (9 / 10) := by
    intro z
    rw [applyScroll, if_pos (by norm_num)]
  refine ⟨by rw [hup]; norm_num, by rw [hup]; rw [abs_of_pos] <;> norm_num, ?_, ?_⟩
  · rw [hup, hdown]; norm_num
  · intro z
    rw [hup, hdown, div_mul_cancel₀ z (by norm_num : (9 / 10 : ℚ) ≠ 0)]

/-- C7: panning by a screen-space delta and then by its negation (zoom and
viewport held fixed, both dimensions positive) restores the camera exactly. -/
theorem C7_pan_inverse (cam : Camera) (dx dy width height : ℚ)
    (_hw : 0 < width) (_hh : 0 < height) :
    pan (pan cam dx dy width height) (-dx) (-dy) width height = cam := by
  obtain ⟨⟨x, y⟩, z⟩ := cam
  simp only [pan]
  refine congrArg₂ Camera.mk (Prod.ext ?_ ?_) rfl
  · show x - dx / z / width * 2 * (width / height)
        - -dx / z / width * 2 * (width / height) = x
    ring
  · show y + dy / z / height * 2 + -dy / z / height * 2 = y
    ring

/-- C7 witness: initial camera, drag delta (3, -2), viewport 800×600. -/
theorem C7_witness :
    (0 : ℚ) < 800 ∧ (0 : ℚ) < 600 ∧
    pan (pan initCamera 3 (-2) 800 600) (-3) (-(-2)) 800 600 = initCamera :=
  ⟨by norm_num, by norm_num,
   C7_pan_inverse initCamera 3 (-2) 800 600 (by norm_num) (by norm_num)⟩

/-- C8 counterexample: camera at the origin with zoom 1; a pointer 100 px
right of the viewport centre resolves to world-x 1/2 on an 800×400 viewport
and to world-x 1/4 on a 400×800 viewport — a factor of 2, not the claimed
factor of 4. -/
theorem C8_counterexample :
    (screenToWorld { position := (0, 0), zoom := 1 } 0 0 800 400 500 200).1 = 1 / 2 ∧
    (screenToWorld { position := (0, 0), zoom := 1 } 0 0 400 800 300 400).1 = 1 / 4 ∧
    ¬ ((1 : ℚ) / 2 = 4 * (1 / 4)) := by
  refine ⟨?_, ?_, by norm_num⟩ <;> norm_num [screenToWorld]

/-- C8 amended: with camera position and zoom held equal, identical
screen-space pixel offsets from the viewport centre resolve through
`screenToWorld` to world-x offsets that differ by a factor of 2 between an
800×400 viewport and a 400×800 viewport (the x scale is `2·aspect/width =
2/height` per pixel). -/
theorem C8_aspect_sensitivity (cam : Camera) (l1 t1 l2 t2 dx dy : ℚ)
    (hz : 0 < cam.zoom) :
    (screenToWorld cam l1 t1 800 400 (l1 + 400 + dx) (t1 + 200 + dy)).1
        - cam.position.1 =
      2 * ((screenToWorld cam l2 t2 400 800 (l2 + 200 + dx) (t2 + 400 + dy)).1
        - cam.position.1) := by
  obtain ⟨⟨x, y⟩, z⟩ := cam
  have hzne : z ≠ 0 := ne_of_gt hz
  simp only [screenToWorld]
  field_simp
  ring

/-- C8 witness for the amended statement: origin camera with zoom 1 and a
100 px offset. -/
theorem C8_witness :
    (0 : ℚ) < ({ position := ((0 : ℚ), (0 : ℚ)), zoom := (1 : ℚ) } : Camera).zoom ∧
    (screenToWorld { position := (0, 0), zoom := 1 } 0 0 800 400 (0 + 400 + 100)
        (0 + 200 + 0)).1 - ({ position := ((0 : ℚ), (0 : ℚ)), zoom := (1 : ℚ) } : Camera).position.1 =
      2 * ((screenToWorld { position := (0, 0), zoom := 1 } 0 0 400 800 (0 + 200 + 100)
        (0 + 400 + 0)).1 - ({ position := ((0 : ℚ), (0 : ℚ)), zoom := (1 : ℚ) } : Camera).position.1) :=
  ⟨by norm_num,
   C8_aspect_sensitivity { position := (0, 0), zoom := 1 } 0 0 0 0 100 0 (by norm_num)⟩

/-- C9: the code has no zero-height guard.  On a frame whose viewport
rectangle has height 0, a scroll step while the viewport is hovered still
mutates the camera zoom (the zoom branch reads no rectangle geometry at all,
and the pan branch would divide by the zero height): from the initial camera,
zoom becomes 0.25·0.9 = 9/40 ≠ 0.25, so the frame is not a no-op. -/
theorem C9_no_zero_height_guard :
    (updateCamera initCamera 800 0
        { secondaryDragged := false, dragDx := 0, dragDy := 0,
          hovered := true, scrollY := -1 }).zoom = 9 / 40 ∧
    ¬ ((9 : ℚ) / 40 = initCamera.zoom) := by
  constructor
  · rw [updateCamera]
    norm_num [applyScroll, initCamera]
  · norm_num [initCamera]

/-- C10: on the first frame after construction, `last_frame_time` is `None`
so the frame delta is 0; from the initial accumulated time 0, no tick is
emitted and the accumulated time stays 0, for any tick_rate and time_scale. -/
theorem C10_first_frame (R : Nat) (s : ℚ) (now : Nanos) :
    frameDt initLastFrameTime now = 0 ∧
    clockFrame R s initPhysicsTime (frameDt initLastFrameTime now) = (0, 0) := by
  have h : frameDt initLastFrameTime now = 0 := Nat.sub_self now
  refine ⟨h, ?_⟩
  rw [h, clockFrame]
  have hm : mulScale 0 |s| = 0 := by
    simp [mulScale, floor_half]
  rw [hm, drain_eq]
  simp [initPhysicsTime]

end CirclesQuads
